import Mathlib

/-!
Shallow embedding of the entity-to-location pipeline implemented by the class
`GeocodeTweetProcessor` in `src/text2map/core/geocoder.py`, together with
theorems settling the specification claims about it.

Modelling conventions:
* Python strings are Lean `String`s; character-level operations are defined
  structurally over `String.data` (code points), which matches Python's
  code-point semantics.  `str.lower` is modelled on the ASCII letter range,
  which covers all data these functions compare (state names, entity text).
* pandas DataFrames are lists of records; column-wise operations become
  `List.map` stages applied in the same order as the source lines.
* latitude/longitude floats never participate in arithmetic in any claim,
  only in presence/absence and equality, so they are modelled as opaque
  `Int` payloads.
* external collaborators (the geocoding service, the boundary shapefile,
  geometric containment) are parameters of the functions that consume them;
  a boundary polygon's geometry is an opaque identifier `pid`.
-/

namespace Text2Map

/-- Python `str.lower` for one character (ASCII letter range). -/
def lowerChar (c : Char) : Char :=
  if 'A' ≤ c && c ≤ 'Z' then Char.ofNat (c.toNat + 32) else c

/-- Python `str.lower`, character-by-character over the code points. -/
def lowerStr (s : String) : String := ⟨s.data.map lowerChar⟩

/-- The characters removed by Python's no-argument `str.strip()`. -/
def pyWhitespace : List Char := [' ', '\t', '\n', '\r', '\x0b', '\x0c']

/-- Python `str.strip(chars)`: drop characters of `cs` from both ends. -/
def stripChars (cs : List Char) (s : String) : String :=
  ⟨((s.data.dropWhile (fun c => cs.contains c)).reverse.dropWhile
      (fun c => cs.contains c)).reverse⟩

/-- Python `str.strip()` (whitespace at both ends). -/
def pyStrip (s : String) : String := stripChars pyWhitespace s

/-- Python `str.strip(" ,")`, used on the grouped key columns (line 93). -/
def stripSpaceComma (s : String) : String := stripChars [' ', ','] s

/-- Python `value.replace('#', '')` (line 85): remove every `#`. -/
def removeHash (s : String) : String := ⟨s.data.filter (fun c => c != '#')⟩

/-- Code-point lexicographic comparison on character lists, Python's string
order. -/
def charListLe : List Char → List Char → Bool
  | [], _ => true
  | _ :: _, [] => false
  | a :: as, b :: bs =>
    if a.toNat < b.toNat then true
    else if b.toNat < a.toNat then false
    else charListLe as bs

/-- Python `<=` on strings. -/
def strLeB (a b : String) : Bool := charListLe a.data b.data

/-- Insert a string into an already sorted list of strings. -/
def insertStr (x : String) : List String → List String
  | [] => [x]
  | y :: ys => if strLeB x y then x :: y :: ys else y :: insertStr x ys

/-- Python `sorted` on a list of strings (ascending, code-point order). -/
def sortStrings : List String → List String
  | [] => []
  | x :: xs => insertStr x (sortStrings xs)

/-- The canonicalization used on each entity list at lines 75-77:
`', '.join(sorted(x))`. -/
def joinSorted (l : List String) : String :=
  String.intercalate ", " (sortStrings l)

/-! ## Span extraction: `extract_entities_by_type` (lines 42-57) -/

/-- Normalize one Python slice endpoint for a sequence of length `n`:
negative indices count from the end, and both ends clamp into `[0, n]`. -/
def pySliceIdx (n : Nat) (i : Int) : Nat :=
  if i < 0 then ((n : Int) + i).toNat else min i.toNat n

/-- Python `text[start:end]`: total for every pair of integer indices. -/
def pySlice (text : String) (start stop : Int) : String :=
  let n := text.data.length
  let a := pySliceIdx n start
  let b := pySliceIdx n stop
  ⟨(text.data.drop a).take (b - a)⟩

/-- One NER label entry `[start, end, type]` of the input JSONL. -/
abbrev Span := Int × Int × String

/-- One input record: the tweet text and its NER label list. -/
structure Record where
  text : String
  label : List Span
deriving DecidableEq

/-- The per-type entity lists of one record, the dictionary returned at
line 57 with keys FAC, LOC, GPE. -/
structure EntRow where
  fac : List String
  loc : List String
  gpe : List String
deriving DecidableEq

/-- The span loop of `extract_entities_by_type`: route each slice into the
FAC/LOC/GPE list by its type tag, ignoring unrecognized tags.  (The Python
for-loop appends at the back; this recursion builds the same lists.) -/
def extractSpans (text : String) : List Span → EntRow
  | [] => ⟨[], [], []⟩
  | (s, e, ty) :: rest =>
    let r := extractSpans text rest
    let t := pySlice text s e
    if ty == "FAC" then ⟨t :: r.fac, r.loc, r.gpe⟩
    else if ty == "LOC" then ⟨r.fac, t :: r.loc, r.gpe⟩
    else if ty == "GPE" then ⟨r.fac, r.loc, t :: r.gpe⟩
    else r

/-- `extract_entities_by_type(row)` (lines 42-57). -/
def extractRow (r : Record) : EntRow := extractSpans r.text r.label

/-- Whether a span's type tag is one of the three routed entity classes. -/
def recognizedSpan (sp : Span) : Bool :=
  sp.2.2 == "FAC" || sp.2.2 == "LOC" || sp.2.2 == "GPE"

/-! ## `process_entities` per-record stages (lines 59-88)

`list(set(x))` (lines 65-67) produces the distinct elements in an order
Python leaves unspecified (hash order); every later use either ignores order
(membership at line 70) or sorts (lines 75-77), so any deduplication order is
a faithful model and we use `List.dedup`. -/

/-- Lines 65-67: reduce each per-type list to its distinct elements. -/
def dedupRow (e : EntRow) : EntRow := ⟨e.fac.dedup, e.loc.dedup, e.gpe.dedup⟩

/-- Lines 69-73, `remove_fac_loc_duplicates`: drop from FAC what occurs in
LOC of the same record; LOC and GPE pass through. -/
def exclRow (e : EntRow) : EntRow :=
  ⟨e.fac.filter (fun x => !(e.loc.contains x)), e.loc, e.gpe⟩

/-- The composite key triple `(FAC, LOC, GPE)` of canonical strings. -/
abbrev Key := String × String × String

/-- Lines 75-77: join each sorted per-type list with `", "`. -/
def keyRowOf (e : EntRow) : Key :=
  (joinSorted e.fac, joinSorted e.loc, joinSorted e.gpe)

/-- Line 88: `remove_hash` applied to the three joined key columns. -/
def hashKey (k : Key) : Key :=
  (removeHash k.1, removeHash k.2.1, removeHash k.2.2)

/-- The per-record part of `process_entities`: the canonical key column of
the cleaned DataFrame, one key per input record, stages in source order
(extract, dedup, FAC/LOC exclusion, sort-join, `#` removal).  The
`dropna(how='all')` of line 80 is a no-op here because the joined columns
are strings, never missing. -/
def processKeys (recs : List Record) : List Key :=
  ((((recs.map extractRow).map dedupRow).map exclRow).map keyRowOf).map hashKey

/-- Modelled from the words of spec §4.2 step 3 (for claim C3 only): strip
`#` from every element first, then sort, then join — the order the spec
asserts, to be compared against the source's `processKeys`. -/
def canonicalizeSpecOrder (l : List String) : String :=
  String.intercalate ", " (sortStrings (l.map removeHash))

/-! ## Grouping (lines 90-96)

`groupby(["FAC","LOC","GPE"]).size().reset_index(name='count')` produces one
row per distinct key, sorted ascending by the key triple (pandas `groupby`
sorts keys by default), with the number of contributing records. -/

/-- Python tuple `<=` on key triples (lexicographic). -/
def keyLeB (x y : Key) : Bool :=
  if x.1 = y.1 then
    (if x.2.1 = y.2.1 then strLeB x.2.2 y.2.2 else strLeB x.2.1 y.2.1)
  else strLeB x.1 y.1

/-- Insert a key into an already sorted key list. -/
def insertKey (x : Key) : List Key → List Key
  | [] => [x]
  | y :: ys => if keyLeB x y then x :: y :: ys else y :: insertKey x ys

/-- Ascending sort of the distinct keys, as pandas `groupby` orders them. -/
def sortKeys : List Key → List Key
  | [] => []
  | x :: xs => insertKey x (sortKeys xs)

/-- Line 90: the grouped table — one `(key, count)` row per distinct
canonical key, in ascending key order. -/
def groupsOf (recs : List Record) : List (Key × Nat) :=
  (sortKeys (processKeys recs).dedup).map
    (fun k => (k, (processKeys recs).count k))

/-- Line 93 applied to one key: strip spaces and commas from each column. -/
def stripKey (k : Key) : Key :=
  (stripSpaceComma k.1, stripSpaceComma k.2.1, stripSpaceComma k.2.2)

/-- Lines 92-93: the grouped table after the `.str.strip(" ,")` pass (row
order unchanged, only the key values rewritten). -/
def strippedGroupsOf (recs : List Record) : List (Key × Nat) :=
  (groupsOf recs).map (fun g => (stripKey g.1, g.2))

/-- Python truthiness of the `max_rows` argument (line 96): `None` and `0`
are falsy, so no truncation happens for them. -/
def pyTruthyNat : Option Nat → Bool
  | none => false
  | some n => n != 0

/-- Lines 95-96: discard the first grouped row unconditionally
(`iloc[1:]`), then truncate to `max_rows` rows when that argument is
truthy.  This is the output of `process_entities`. -/
def retainedGroups (recs : List Record) (maxRows : Option Nat) :
    List (Key × Nat) :=
  let t := (strippedGroupsOf recs).drop 1
  if pyTruthyNat maxRows then t.take (maxRows.getD 0) else t

/-- The single row removed by `iloc[1:]` at line 95. -/
def discardedGroupOf (recs : List Record) : List (Key × Nat) :=
  (strippedGroupsOf recs).take 1

/-- The rows removed by the `[:max_rows]` truncation at line 96. -/
def truncDropped (recs : List Record) (maxRows : Option Nat) :
    List (Key × Nat) :=
  let t := (strippedGroupsOf recs).drop 1
  if pyTruthyNat maxRows then t.drop (maxRows.getD 0) else []

/-- The retained rows with their keys as they were before the line-93 strip
(the keys the `groupby` actually grouped on). -/
def retainedRaw (recs : List Record) (maxRows : Option Nat) :
    List (Key × Nat) :=
  let t := (groupsOf recs).drop 1
  if pyTruthyNat maxRows then t.take (maxRows.getD 0) else t

/-- Total of the `count` column over a list of grouped rows. -/
def sumCounts (gs : List (Key × Nat)) : Nat := (gs.map Prod.snd).sum

/-- The fully-empty composite key. -/
def emptyKey : Key := ("", "", "")

/-- How many input records canonicalize to the fully-empty key. -/
def emptyKeyCount (recs : List Record) : Nat :=
  (processKeys recs).count emptyKey

/-! ## Geocoding: `geocode_address` / `geocode_data` (lines 101-122) -/

/-- What the external forward-geocoding service can answer for one address:
a coordinate pair, "not found" (`None`), or a `GeocoderTimedOut` error. -/
inductive GeoResult where
  | found (lat lon : Int)
  | notFound
  | timedOut
deriving DecidableEq

/-- One lookup submitted to the service: the address text and the bounded
wait passed along with it. -/
structure GeoRequest where
  address : String
  timeout : Nat
deriving DecidableEq

/-- Whether the service answer carries coordinates. -/
def isFound : GeoResult → Bool
  | .found _ _ => true
  | _ => false

/-- Line 104: the f-string `"{FAC}, {LOC}, {GPE}"` for a key triple. -/
def addressOf (k : Key) : String := k.1 ++ ", " ++ k.2.1 ++ ", " ++ k.2.2

/-- `geocode_address` (lines 101-111): one lookup; coordinates on success,
a missing pair on "not found" or timeout. -/
def geocodeAddress (svc : String → GeoResult) (k : Key) :
    Option Int × Option Int :=
  match svc (addressOf k) with
  | .found la lo => (some la, some lo)
  | .notFound => (none, none)
  | .timedOut => (none, none)

/-- One row of `geocode_data`'s output: a retained group with both
coordinates present. -/
structure GRow where
  fac : String
  loc : String
  gpe : String
  count : Nat
  lat : Int
  lon : Int
deriving DecidableEq

/-- `geocode_data` (lines 113-122): apply `geocode_address` to every grouped
row (the request log records the address and bounded wait of each of the
one-per-row lookups), then `dropna` on Latitude/Longitude.  Returns the
request log together with the surviving rows. -/
def geocodeData (svc : String → GeoResult) (rows : List (Key × Nat)) :
    List GeoRequest × List GRow :=
  (rows.map (fun g => ⟨addressOf g.1, 10⟩),
   rows.filterMap (fun g =>
     match geocodeAddress svc g.1 with
     | (some la, some lo) => some ⟨g.1.1, g.1.2.1, g.1.2.2, g.2, la, lo⟩
     | _ => none))

/-! ## Spatial records: `create_geodataframe` (lines 124-144) -/

/-- A geometry value as it can appear in a DataFrame cell: a point built
from `(Longitude, Latitude)`, a boundary polygon (opaque id), or a missing
value (pandas `NaN`). -/
inductive Geometry where
  | point (lon lat : Int)
  | poly (pid : Nat)
  | missing
deriving DecidableEq

/-- One row of the boundary shapefile: the region display name and its
polygon geometry (opaque id). -/
structure BEntry where
  name : String
  pid : Nat
deriving DecidableEq

/-- One spatial record: the group attributes plus the active geometry. -/
structure SRow where
  fac : String
  loc : String
  gpe : String
  count : Nat
  lat : Int
  lon : Int
  geometry : Geometry
deriving DecidableEq

/-- Line 126-127: wrap a geocoded row with a `Point(Longitude, Latitude)`
geometry. -/
def toSpatial (r : GRow) : SRow :=
  ⟨r.fac, r.loc, r.gpe, r.count, r.lat, r.lon, Geometry.point r.lon r.lat⟩

/-- Python truthiness of the `target_states` argument (line 129): `None`
and the empty list are both falsy. -/
def pyTruthyTargets : Option (List String) → Bool
  | none => false
  | some l => !l.isEmpty

/-- `create_geodataframe` (lines 124-144).  `within` is the geometric
point-in-polygon test of `sjoin(..., predicate='within')`; `boundary` is the
shapefile, read only inside the filter branch.  The inner spatial join emits
one output row per (point, selected polygon) pair that satisfies `within`,
and `columns_to_keep` restores the original attribute columns.  (The CRS
reprojection of lines 135-136 changes no modelled attribute.) -/
def createGeodataframe (within : Int → Int → Nat → Bool)
    (boundary : List BEntry) (targets : Option (List String))
    (df : List GRow) : List SRow :=
  let gdf := df.map toSpatial
  if pyTruthyTargets targets then
    let selected := boundary.filter (fun e => (targets.getD []).contains e.name)
    gdf.flatMap (fun r =>
      (selected.filter (fun e => within r.lon r.lat e.pid)).map (fun _ => r))
  else gdf

/-! ## Polygon substitution: `contains_us_state_exact` /
`add_state_polygons` (lines 146-179) -/

/-- The fixed list of the fifty U.S. state names (lines 24-32). -/
def usStates : List String :=
  ["Alabama", "Alaska", "Arizona", "Arkansas", "California", "Colorado",
   "Connecticut", "Delaware", "Florida", "Georgia", "Hawaii", "Idaho",
   "Illinois", "Indiana", "Iowa", "Kansas", "Kentucky", "Louisiana",
   "Maine", "Maryland", "Massachusetts", "Michigan", "Minnesota",
   "Mississippi", "Missouri", "Montana", "Nebraska", "Nevada",
   "New Hampshire", "New Jersey", "New Mexico", "New York",
   "North Carolina", "North Dakota", "Ohio", "Oklahoma", "Oregon",
   "Pennsylvania", "Rhode Island", "South Carolina", "South Dakota",
   "Tennessee", "Texas", "Utah", "Vermont", "Virginia", "Washington",
   "West Virginia", "Wisconsin", "Wyoming"]

/-- Line 33: the same list lower-cased. -/
def usStatesLower : List String := usStates.map lowerStr

/-- The normalization `str(v).lower().strip()` shared by the state test
(line 150) and the merge key `GPE_lower` (line 165). -/
def lowerStrip (s : String) : String := pyStrip (lowerStr s)

/-- `contains_us_state_exact` (lines 146-151): full-string membership of the
normalized GPE value in the fixed state list.  (`pd.isna` is false for the
string values this model carries.) -/
def containsUsStateExact (gpe : String) : Bool :=
  usStatesLower.contains (lowerStrip gpe)

/-- Line 158: the `make_polygon` flag of one record. -/
def makePolygonFlag (r : SRow) : Bool :=
  r.fac == "" && r.loc == "" && containsUsStateExact r.gpe

/-- One output row of `add_state_polygons`.  The merge of lines 166-171
suffixes the two clashing `geometry` columns, so the input point survives as
`geometry_x` (`geometryX` here) while line 173's masked assignment creates a
fresh `geometry` column — present as a polygon only where assigned, missing
(`NaN`) everywhere else.  Line 174 drops `GPE_lower`, `name` and
`geometry_y` but keeps `make_polygon`. -/
structure MRow where
  fac : String
  loc : String
  gpe : String
  count : Nat
  lat : Int
  lon : Int
  geometryX : Geometry
  makePolygon : Bool
  geometry : Geometry
deriving DecidableEq

/-- The boundary rows a record joins with: name (lower-cased at line 163)
equal to the record's `GPE_lower` key. -/
def mergeMatches (boundary : List BEntry) (r : SRow) : List BEntry :=
  boundary.filter (fun e => lowerStr e.name == lowerStrip r.gpe)

/-- `add_state_polygons` restricted to one input record: the left-merge
emits one row per matching boundary entry (or a single row with a missing
right side), then line 173 writes `geometry_y` into the new `geometry`
column exactly on the `make_polygon == 1` rows. -/
def addOne (boundary : List BEntry) (r : SRow) : List MRow :=
  let f := makePolygonFlag r
  let base : Geometry → MRow := fun g =>
    ⟨r.fac, r.loc, r.gpe, r.count, r.lat, r.lon, r.geometry, f, g⟩
  match mergeMatches boundary r with
  | [] => [base Geometry.missing]
  | ms => ms.map (fun e => base (if f then Geometry.poly e.pid else Geometry.missing))

/-- `add_state_polygons` (lines 153-179) over the whole collection. -/
def addStatePolygons (boundary : List BEntry) (rows : List SRow) :
    List MRow :=
  rows.flatMap (addOne boundary)

/-! ## Concrete batches used by witnesses and counterexamples -/

/-- One record whose FAC spans slice to `"#b"` and `"a"`. -/
def rec3 : Record := ⟨"#ba", [((0 : Int), (2 : Int), "FAC"), (2, 3, "FAC")]⟩

/-- A batch whose single record has only a GPE entity, hence no empty-key
group. -/
def gpeOnlyBatch : List Record := [⟨"x", [((0 : Int), (1 : Int), "GPE")]⟩]

/-- A batch with one empty record and one GPE-only record. -/
def c4batch : List Record := [⟨"", []⟩, ⟨"x", [((0 : Int), (1 : Int), "GPE")]⟩]

/-- A batch whose two non-empty keys `("a","","")` and `("a,","","")` are
distinct before, equal after, the `strip(" ,")` pass. -/
def c5batch : List Record :=
  [⟨"", []⟩, ⟨"a", [((0 : Int), (1 : Int), "FAC")]⟩,
   ⟨"a,", [((0 : Int), (2 : Int), "FAC")]⟩]

/-- A batch producing three groups, for exercising the truncation step. -/
def c7batch : List Record :=
  [⟨"", []⟩, ⟨"a", [((0 : Int), (1 : Int), "FAC")]⟩,
   ⟨"b", [((0 : Int), (1 : Int), "FAC")]⟩]

/-- A state-only spatial record (`FAC = LOC = ""`, GPE an exact state
name). -/
def stateOnlyRow : SRow := ⟨"", "", "Florida", 1, 10, 20, Geometry.point 20 10⟩

/-- A spatial record with a facility entity, hence not state-only. -/
def cityHallRow : SRow :=
  ⟨"City Hall", "", "Tampa", 1, 10, 20, Geometry.point 20 10⟩

/-- A one-entry boundary dataset containing Florida. -/
def florBoundary : List BEntry := [⟨"Florida", 0⟩]

/-! ## Helper lemmas about the key order and the group sort -/

/-- A string list is never strictly below the empty list. -/
lemma charListLe_nil_right {l : List Char} (h : charListLe l [] = true) :
    l = [] := by
  cases l with
  | nil => rfl
  | cons a as => simp [charListLe] at h

/-- The empty string is minimal for the Python string order. -/
lemma strLeB_empty_left (s : String) : strLeB "" s = true := rfl

/-- Only the empty string sorts at or below the empty string. -/
lemma strLeB_empty_right {s : String} (h : strLeB s "" = true) : s = "" := by
  have hd : s.data = [] := charListLe_nil_right h
  cases s
  exact congrArg String.mk hd

/-- The fully-empty key is minimal for the key order. -/
lemma keyLeB_empty_left (k : Key) : keyLeB emptyKey k = true := by
  unfold keyLeB emptyKey
  split_ifs <;> exact strLeB_empty_left _

/-- Only the fully-empty key sorts at or below the fully-empty key. -/
lemma keyLeB_empty_right {k : Key} (h : keyLeB k emptyKey = true) :
    k = emptyKey := by
  obtain ⟨a, b, c⟩ := k
  simp only [keyLeB, emptyKey] at h ⊢
  split_ifs at h with h1 h2
  · subst h1; subst h2
    rw [strLeB_empty_right h]
  · exact absurd (strLeB_empty_right h) h2
  · exact absurd (strLeB_empty_right h) h1

/-- Inserting the fully-empty key puts it at the head. -/
lemma insertKey_emptyKey_head (l : List Key) :
    (insertKey emptyKey l).head? = some emptyKey := by
  cases l with
  | nil => rfl
  | cons y ys => simp [insertKey, keyLeB_empty_left]

/-- Insertion preserves a fully-empty key at the head. -/
lemma insertKey_head_empty (x : Key) (l : List Key)
    (h : l.head? = some emptyKey) :
    (insertKey x l).head? = some emptyKey := by
  cases l with
  | nil => simp at h
  | cons y ys =>
    simp only [List.head?_cons, Option.some.injEq] at h
    subst h
    by_cases hc : keyLeB x emptyKey = true
    · rw [keyLeB_empty_right hc]
      exact insertKey_emptyKey_head _
    · simp [insertKey, hc]

/-- When the fully-empty key occurs, the sorted key list starts with it. -/
lemma sortKeys_head_empty {l : List Key} (h : emptyKey ∈ l) :
    (sortKeys l).head? = some emptyKey := by
  induction l with
  | nil => simp at h
  | cons k ks ih =>
    rcases List.mem_cons.mp h with hk | hk
    · rw [sortKeys, ← hk]
      exact insertKey_emptyKey_head _
    · exact insertKey_head_empty _ _ (ih hk)

/-- Insertion produces a permutation of consing. -/
lemma insertKey_perm (x : Key) (l : List Key) :
    (insertKey x l).Perm (x :: l) := by
  induction l with
  | nil => exact List.Perm.refl _
  | cons y ys ih =>
    by_cases hc : keyLeB x y = true
    · simp [insertKey, hc]
    · simp only [insertKey, hc, if_false]
      exact (ih.cons y).trans (List.Perm.swap x y ys)

/-- The key sort permutes its input. -/
lemma sortKeys_perm (l : List Key) : (sortKeys l).Perm l := by
  induction l with
  | nil => exact List.Perm.refl _
  | cons k ks ih => exact (insertKey_perm k (sortKeys ks)).trans (ih.cons k)

/-! ## Helper lemmas for the grouping count conservation -/

/-- Pointwise sum of two mapped values splits. -/
lemma sum_map_add (f g : Key → Nat) (d : List Key) :
    (d.map (fun x => f x + g x)).sum = (d.map f).sum + (d.map g).sum := by
  induction d with
  | nil => rfl
  | cons y ys ih => simp [ih]; omega

/-- The indicator of a key absent from a list sums to zero. -/
lemma sum_map_indicator_zero (a : Key) {d : List Key} (h : a ∉ d) :
    (d.map (fun x => if a == x then 1 else 0)).sum = 0 := by
  induction d with
  | nil => rfl
  | cons y ys ih =>
    have hy : (a == y) = false := by
      rw [beq_eq_false_iff_ne]
      rintro rfl
      exact h (List.mem_cons_self _ _)
    have hrest : a ∉ ys := fun hm => h (List.mem_cons_of_mem _ hm)
    rw [List.map_cons, List.sum_cons, hy, if_neg Bool.false_ne_true,
      Nat.zero_add]
    exact ih hrest

/-- The indicator of a key present in a duplicate-free list sums to one. -/
lemma sum_map_indicator_one (a : Key) {d : List Key} (hn : d.Nodup)
    (h : a ∈ d) :
    (d.map (fun x => if a == x then 1 else 0)).sum = 1 := by
  induction d with
  | nil => simp at h
  | cons y ys ih =>
    obtain ⟨hy, hys⟩ := List.nodup_cons.mp hn
    rcases List.mem_cons.mp h with rfl | ha
    · rw [List.map_cons, List.sum_cons, beq_self_eq_true, if_pos rfl,
        sum_map_indicator_zero a hy]
    · have hne : (a == y) = false := by
        rw [beq_eq_false_iff_ne]
        rintro rfl
        exact hy ha
      rw [List.map_cons, List.sum_cons, hne, if_neg Bool.false_ne_true,
        Nat.zero_add]
      exact ih hys ha

/-- Counting every key of `l` once via a covering duplicate-free key list
recovers the length of `l`. -/
lemma sum_map_count_eq_length (l d : List Key) (hn : d.Nodup)
    (hall : ∀ x ∈ l, x ∈ d) :
    (d.map (fun x => l.count x)).sum = l.length := by
  induction l with
  | nil => simp
  | cons a l' ih =>
    have hstep : (d.map (fun x => (a :: l').count x)).sum
        = (d.map (fun x => l'.count x + if a == x then 1 else 0)).sum := by
      congr 1
      exact List.map_congr_left (fun x _ => List.count_cons x a l')
    rw [hstep, sum_map_add,
      ih (fun x hx => hall x (List.mem_cons_of_mem _ hx)),
      sum_map_indicator_one a hn (hall a (List.mem_cons_self _ _))]
    rfl

/-- The canonical key column has one key per input record. -/
lemma processKeys_length (recs : List Record) :
    (processKeys recs).length = recs.length := by
  simp [processKeys]

/-- The grouped counts sum to the number of input records. -/
lemma groups_sum (recs : List Record) :
    sumCounts (groupsOf recs) = recs.length := by
  unfold sumCounts groupsOf
  rw [List.map_map]
  have hperm : ((sortKeys (processKeys recs).dedup).map
      (fun k => (processKeys recs).count k)).Perm
      (((processKeys recs).dedup).map (fun k => (processKeys recs).count k)) :=
    (sortKeys_perm _).map _
  rw [show (Prod.snd ∘ fun k => (k, (processKeys recs).count k))
      = fun k => (processKeys recs).count k from rfl]
  rw [hperm.sum_eq,
    sum_map_count_eq_length _ _ (List.nodup_dedup _)
      (fun x hx => List.mem_dedup.mpr hx)]
  exact processKeys_length recs

/-! ## Claim theorems -/

/-- C3, counterexample: the claim "the canonical string equals
join(sort(map(strip-hash, set)))" fails on the record whose FAC set is
`{"#b", "a"}` — the code sorts with the `#` still present (`"#b" < "a"`)
and strips afterwards, producing `"b, a"`, while the claimed order
produces `"a, b"`. -/
theorem canonicalization_order_cex :
    (exclRow (dedupRow (extractRow rec3))).fac = ["#b", "a"]
    ∧ processKeys [rec3] = [("b, a", "", "")]
    ∧ canonicalizeSpecOrder ["#b", "a"] = "a, b"
    ∧ ("b, a" : String) ≠ "a, b" := by decide

/-- C3, amended: canonicalization of each per-type entity set is computed
by sorting the elements lexicographically, joining them with `", "`, and
then stripping `#` characters from the joined string (so `#` still
participates in the sort order). -/
theorem canonicalization_strips_hash_after_join (recs : List Record) :
    processKeys recs = recs.map (fun r =>
      let e := exclRow (dedupRow (extractRow r))
      ((removeHash (joinSorted e.fac), removeHash (joinSorted e.loc),
        removeHash (joinSorted e.gpe)) : Key)) := by
  simp only [processKeys, List.map_map]
  rfl

/-- C4, counterexample: on a batch with no record of fully-empty key, the
group discarded by `iloc[1:]` is the GPE-only group `("", "", "x")`, not
the fully-empty-key group. -/
theorem discard_first_group_cex :
    discardedGroupOf gpeOnlyBatch = [(("", "", "x"), 1)]
    ∧ (("", "", "x") : Key) ≠ emptyKey := by decide

/-- C4, amended: the first group after sorting is discarded
unconditionally; whenever some input record canonicalizes to the
fully-empty key, that discarded first group is the `("", "", "")` group
(it is minimal for the sort order). -/
theorem discard_first_group_empty_key_when_present (recs : List Record)
    (h : emptyKey ∈ processKeys recs) :
    (groupsOf recs).head? = some (emptyKey, (processKeys recs).count emptyKey)
    ∧ discardedGroupOf recs
        = [(emptyKey, (processKeys recs).count emptyKey)] := by
  have hd : emptyKey ∈ (processKeys recs).dedup := List.mem_dedup.mpr h
  have hs := sortKeys_head_empty hd
  have h1 : (groupsOf recs).head?
      = some (emptyKey, (processKeys recs).count emptyKey) := by
    unfold groupsOf
    rw [List.head?_map, hs]
    rfl
  refine ⟨h1, ?_⟩
  unfold discardedGroupOf strippedGroupsOf
  cases hg : groupsOf recs with
  | nil => rw [hg] at h1; simp at h1
  | cons a t =>
    rw [hg] at h1
    simp only [List.head?_cons, Option.some.injEq] at h1
    subst h1
    rfl

/-- C4, witness for the amended theorem at a concrete batch containing an
empty-key record. -/
theorem discard_first_group_empty_key_witness :
    emptyKey ∈ processKeys c4batch
    ∧ (groupsOf c4batch).head?
        = some (emptyKey, (processKeys c4batch).count emptyKey)
    ∧ discardedGroupOf c4batch
        = [(emptyKey, (processKeys c4batch).count emptyKey)] :=
  ⟨by decide, (discard_first_group_empty_key_when_present c4batch (by decide)).1,
   (discard_first_group_empty_key_when_present c4batch (by decide)).2⟩

/-- C5, counterexample: after the line-93 `strip(" ,")` pass the two
retained groups of `c5batch` carry the same key triple `("a", "", "")`
(their grouping keys `("a","","")` and `("a,","","")` were distinct),
refuting pairwise distinctness of the post-trim keys. -/
theorem retained_groups_post_trim_collision_cex :
    retainedGroups c5batch none = [(("a", "", ""), 1), (("a", "", ""), 1)]
    ∧ ¬ ((retainedGroups c5batch none).map Prod.fst).Nodup := by decide

/-- C5, amended: the retained groups are pairwise distinct by their
pre-trim canonical keys (the keys `groupby` grouped on); the output keys
are those keys with the space-and-comma trim applied, which can make two
retained keys coincide. -/
theorem retained_groups_distinct_pre_trim (recs : List Record)
    (m : Option Nat) :
    retainedGroups recs m
      = (retainedRaw recs m).map (fun g => (stripKey g.1, g.2))
    ∧ ((retainedRaw recs m).map Prod.fst).Nodup := by
  have hkeys : (groupsOf recs).map Prod.fst
      = sortKeys (processKeys recs).dedup := by
    unfold groupsOf
    rw [List.map_map]
    exact List.map_id _
  have hnodup : ((groupsOf recs).map Prod.fst).Nodup := by
    rw [hkeys]
    exact (sortKeys_perm _).nodup_iff.mpr (List.nodup_dedup _)
  constructor
  · unfold retainedGroups retainedRaw strippedGroupsOf
    cases hpt : pyTruthyNat m <;> simp [hpt, List.map_drop, List.map_take]
  · unfold retainedRaw
    cases hpt : pyTruthyNat m
    · simp only [hpt, Bool.false_eq_true, if_false]
      rw [List.map_drop]
      exact hnodup.sublist (List.drop_sublist 1 _)
    · simp only [hpt, if_true]
      rw [List.map_take, List.map_drop]
      exact hnodup.sublist
        ((List.take_sublist _ _).trans (List.drop_sublist 1 _))

/-- C6 (confirmed): the FAC/LOC exclusion removes from the FAC set exactly
the strings present in the same record's LOC set and leaves the LOC and
GPE sets untouched. -/
theorem exclusion_drops_fac_in_loc_only (e : EntRow) (x : String) :
    (x ∈ (exclRow e).fac ↔ x ∈ e.fac ∧ x ∉ e.loc)
    ∧ (exclRow e).loc = e.loc ∧ (exclRow e).gpe = e.gpe := by
  refine ⟨?_, rfl, rfl⟩
  simp [exclRow, List.mem_filter]

/-- C7, counterexample: with `max_rows = 1` on a three-group batch, the sum
of the retained counts plus the size of the empty-key group is 2, but the
batch has 3 records — the truncated group's count is lost. -/
theorem grouping_conservation_cex :
    ¬ (sumCounts (retainedGroups c7batch (some 1)) + emptyKeyCount c7batch
        = c7batch.length) := by decide

/-- C7, amended: the sum of `count` over the retained groups, plus the
count of the discarded first group (the empty-key group whenever one
exists), plus the counts of the groups dropped by the `max_rows`
truncation, equals the total number of input records. -/
theorem grouping_conservation_with_discard_and_truncation
    (recs : List Record) (m : Option Nat) :
    sumCounts (retainedGroups recs m) + sumCounts (discardedGroupOf recs)
      + sumCounts (truncDropped recs m) = recs.length := by
  have hsplit : ∀ (n : Nat) (L : List (Key × Nat)),
      sumCounts (L.take n) + sumCounts (L.drop n) = sumCounts L := by
    intro n L
    unfold sumCounts
    rw [← List.sum_append, ← List.map_append, List.take_append_drop]
  have hstr : sumCounts (strippedGroupsOf recs)
      = sumCounts (groupsOf recs) := by
    unfold sumCounts strippedGroupsOf
    rw [List.map_map]
    rfl
  have hg := groups_sum recs
  have hnil : sumCounts ([] : List (Key × Nat)) = 0 := rfl
  unfold retainedGroups discardedGroupOf truncDropped
  cases hpt : pyTruthyNat m
  · simp only [hpt, Bool.false_eq_true, if_false]
    have h1 := hsplit 1 (strippedGroupsOf recs)
    omega
  · simp only [hpt, if_true]
    have h1 := hsplit 1 (strippedGroupsOf recs)
    have h2 := hsplit (m.getD 0) ((strippedGroupsOf recs).drop 1)
    omega

/-- Any Python slice of a text is no longer than the text: both endpoints
clamp into range. -/
lemma pySlice_length_le (text : String) (a b : Int) :
    (pySlice text a b).length ≤ text.length := by
  have h : ∀ (l : List Char) (i j : Nat), ((l.drop i).take j).length ≤ l.length := by
    intro l i j
    rw [List.length_take, List.length_drop]
    omega
  exact h text.data _ _

/-- C9 (confirmed): extraction is total over all integer span indices — it
always returns the three per-type lists, every recognized-type span
contributes exactly one (clamped) slice, unrecognized types are skipped,
and every extracted string fits inside the record's text. -/
theorem extraction_total_on_malformed_spans (r : Record) :
    (extractRow r).fac.length + (extractRow r).loc.length
        + (extractRow r).gpe.length = r.label.countP recognizedSpan
    ∧ ∀ s ∈ (extractRow r).fac ++ (extractRow r).loc ++ (extractRow r).gpe,
        s.length ≤ r.text.length := by
  obtain ⟨text, label⟩ := r
  simp only [extractRow]
  induction label with
  | nil => exact ⟨rfl, by simp [extractSpans]⟩
  | cons hd tl ih =>
    obtain ⟨ih1, ih2⟩ := ih
    obtain ⟨s, e, ty⟩ := hd
    have hcount : List.countP recognizedSpan ((s, e, ty) :: tl)
        = List.countP recognizedSpan tl
          + if recognizedSpan (s, e, ty) then 1 else 0 :=
      List.countP_cons _ _ _
    by_cases hF : (ty == "FAC") = true
    · have hrec : recognizedSpan (s, e, ty) = true := by
        simp [recognizedSpan, hF]
      refine ⟨?_, ?_⟩
      · simp only [extractSpans, hF, if_true, List.length_cons, hcount, hrec]
        omega
      · intro x hx
        simp only [extractSpans, hF, if_true, List.cons_append,
          List.mem_cons, List.mem_append] at hx
        have h1 : x = pySlice text s e → x.length ≤ text.length :=
          fun h => h ▸ pySlice_length_le _ _ _
        have h2 : x ∈ (extractSpans text tl).fac → x.length ≤ text.length :=
          fun h => ih2 x (by rw [List.mem_append, List.mem_append]; tauto)
        have h3 : x ∈ (extractSpans text tl).loc → x.length ≤ text.length :=
          fun h => ih2 x (by rw [List.mem_append, List.mem_append]; tauto)
        have h4 : x ∈ (extractSpans text tl).gpe → x.length ≤ text.length :=
          fun h => ih2 x (by rw [List.mem_append, List.mem_append]; tauto)
        tauto
    · by_cases hL : (ty == "LOC") = true
      · have hrec : recognizedSpan (s, e, ty) = true := by
          simp [recognizedSpan, hL]
        refine ⟨?_, ?_⟩
        · simp only [extractSpans, hF, hL, Bool.false_eq_true, if_false,
            if_true, List.length_cons, hcount, hrec]
          omega
        · intro x hx
          simp only [extractSpans, hF, hL, Bool.false_eq_true, if_false,
            if_true, List.mem_append, List.mem_cons] at hx
          have h1 : x = pySlice text s e → x.length ≤ text.length :=
            fun h => h ▸ pySlice_length_le _ _ _
          have h2 : x ∈ (extractSpans text tl).fac → x.length ≤ text.length :=
            fun h => ih2 x (by rw [List.mem_append, List.mem_append]; tauto)
          have h3 : x ∈ (extractSpans text tl).loc → x.length ≤ text.length :=
            fun h => ih2 x (by rw [List.mem_append, List.mem_append]; tauto)
          have h4 : x ∈ (extractSpans text tl).gpe → x.length ≤ text.length :=
            fun h => ih2 x (by rw [List.mem_append, List.mem_append]; tauto)
          tauto
      · by_cases hG : (ty == "GPE") = true
        · have hrec : recognizedSpan (s, e, ty) = true := by
            simp [recognizedSpan, hG]
          refine ⟨?_, ?_⟩
          · simp only [extractSpans, hF, hL, hG, Bool.false_eq_true,
              if_false, if_true, List.length_cons, hcount, hrec]
            omega
          · intro x hx
            simp only [extractSpans, hF, hL, hG, Bool.false_eq_true,
              if_false, if_true, List.mem_append, List.mem_cons] at hx
            have h1 : x = pySlice text s e → x.length ≤ text.length :=
              fun h => h ▸ pySlice_length_le _ _ _
            have h2 : x ∈ (extractSpans text tl).fac → x.length ≤ text.length :=
              fun h => ih2 x (by rw [List.mem_append, List.mem_append]; tauto)
            have h3 : x ∈ (extractSpans text tl).loc → x.length ≤ text.length :=
              fun h => ih2 x (by rw [List.mem_append, List.mem_append]; tauto)
            have h4 : x ∈ (extractSpans text tl).gpe → x.length ≤ text.length :=
              fun h => ih2 x (by rw [List.mem_append, List.mem_append]; tauto)
            tauto
        · have hrec : recognizedSpan (s, e, ty) = false := by
            simp [recognizedSpan, hF, hL, hG]
          refine ⟨?_, ?_⟩
          · simp only [extractSpans, hF, hL, hG, Bool.false_eq_true,
              if_false, hcount, hrec]
            omega
          · intro x hx
            simp only [extractSpans, hF, hL, hG, Bool.false_eq_true,
              if_false, List.mem_append] at hx
            exact ih2 x (by rw [List.mem_append, List.mem_append]; tauto)

/-- The surviving rows of `geocode_data`, written as one `filterMap` over
the service's answers. -/
lemma geocodeData_snd (svc : String → GeoResult) (rows : List (Key × Nat)) :
    (geocodeData svc rows).2 = rows.filterMap (fun g =>
      match svc (addressOf g.1) with
      | .found la lo => some ⟨g.1.1, g.1.2.1, g.1.2.2, g.2, la, lo⟩
      | .notFound => none
      | .timedOut => none) := by
  unfold geocodeData geocodeAddress
  dsimp only
  congr 1
  funext g
  cases svc (addressOf g.1) <;> rfl

/-- C8 (confirmed): exactly one lookup with bounded wait 10 is made per
group, the surviving rows are exactly the groups whose lookup answered
with coordinates, and every surviving row carries the coordinates of its
group's single lookup (so no null or partial coordinates survive). -/
theorem geocode_single_bounded_lookup_and_exclusion
    (svc : String → GeoResult) (rows : List (Key × Nat)) :
    (geocodeData svc rows).1 = rows.map (fun g => ⟨addressOf g.1, 10⟩)
    ∧ (geocodeData svc rows).2.map (fun r => ((r.fac, r.loc, r.gpe) : Key))
        = (rows.filter (fun g => isFound (svc (addressOf g.1)))).map Prod.fst
    ∧ ∀ r ∈ (geocodeData svc rows).2,
        svc (addressOf (r.fac, r.loc, r.gpe)) = GeoResult.found r.lat r.lon := by
  refine ⟨rfl, ?_, ?_⟩
  · rw [geocodeData_snd]
    induction rows with
    | nil => rfl
    | cons g rest ih =>
      cases hsvc : svc (addressOf g.1) with
      | found la lo =>
        simp [List.filterMap_cons, List.filter_cons, hsvc, isFound, ih]
      | notFound =>
        simp [List.filterMap_cons, List.filter_cons, hsvc, isFound, ih]
      | timedOut =>
        simp [List.filterMap_cons, List.filter_cons, hsvc, isFound, ih]
  · intro r hr
    rw [geocodeData_snd] at hr
    obtain ⟨g, hg, hsome⟩ := List.mem_filterMap.mp hr
    cases hsvc : svc (addressOf g.1) with
    | found la lo =>
      rw [hsvc] at hsome
      simp only [Option.some.injEq] at hsome
      subst hsome
      exact hsvc
    | notFound => rw [hsvc] at hsome; simp at hsome
    | timedOut => rw [hsvc] at hsome; simp at hsome

/-- C10 (confirmed): an empty (but present) target-region list is falsy,
so no spatial filtering happens at all — the result is the plain point
wrapping of every geocoded row, identical to passing no target set, for
any containment test and any boundary dataset (the dataset is not
consulted). -/
theorem empty_target_set_no_filtering (w1 w2 : Int → Int → Nat → Bool)
    (b1 b2 : List BEntry) (df : List GRow) :
    createGeodataframe w1 b1 (some []) df = df.map toSpatial
    ∧ createGeodataframe w1 b1 (some []) df
        = createGeodataframe w2 b2 none df := by
  constructor <;> simp [createGeodataframe, pyTruthyTargets]

/-- C1 (code bug): evaluating `add_state_polygons` at a record that does
not satisfy the state-only condition.  Because the merge renames the input
point column to `geometry_x` and line 173's masked assignment creates a
fresh `geometry` column, the record's active geometry afterwards is the
missing value, not its original point — the claim's "kept unchanged" is
the intended behavior the code misses.  (The exact-match part of the
claim does hold: "Florida Panhandle" is not flagged, "Florida" is.) -/
theorem addStatePolygons_drops_unflagged_point_geometry :
    makePolygonFlag cityHallRow = false
    ∧ addStatePolygons florBoundary [cityHallRow]
        = [⟨"City Hall", "", "Tampa", 1, 10, 20,
            Geometry.point 20 10, false, Geometry.missing⟩]
    ∧ cityHallRow.geometry = Geometry.point 20 10
    ∧ Geometry.missing ≠ Geometry.point 20 10
    ∧ containsUsStateExact "Florida Panhandle" = false
    ∧ containsUsStateExact "Florida" = true
    ∧ addStatePolygons florBoundary [stateOnlyRow]
        = [⟨"", "", "Florida", 1, 10, 20,
            Geometry.point 20 10, true, Geometry.poly 0⟩] := by decide

/-- C2, counterexample: a state-only record whose GPE has no match in the
boundary dataset does not keep its point — its active geometry after
`add_state_polygons` is the missing value. -/
theorem state_only_without_boundary_match_cex :
    (addOne ([] : List BEntry) stateOnlyRow).map MRow.geometry
      = [Geometry.missing]
    ∧ stateOnlyRow.geometry = Geometry.point 20 10
    ∧ Geometry.missing ≠ Geometry.point 20 10 := by decide

/-- C2, amended: a record flagged state-only whose GPE value has no
case-folded name match in the boundary dataset ends with the missing
geometry value in the active geometry column (its original point survives
only in the suffixed `geometry_x` column), rather than keeping its point
as the claim states. -/
theorem state_only_without_boundary_match_missing_geometry
    (boundary : List BEntry) (r : SRow)
    (hf : makePolygonFlag r = true) (hm : mergeMatches boundary r = []) :
    addOne boundary r
      = [⟨r.fac, r.loc, r.gpe, r.count, r.lat, r.lon, r.geometry, true,
          Geometry.missing⟩] := by
  unfold addOne
  rw [hm, hf]

/-- C2, witness for the amended theorem: the Florida-only record against
an empty boundary dataset. -/
theorem state_only_without_boundary_match_witness :
    makePolygonFlag stateOnlyRow = true
    ∧ mergeMatches [] stateOnlyRow = []
    ∧ addOne [] stateOnlyRow
        = [⟨"", "", "Florida", 1, 10, 20, Geometry.point 20 10, true,
            Geometry.missing⟩] :=
  ⟨by decide, rfl,
   state_only_without_boundary_match_missing_geometry [] stateOnlyRow
     (by decide) rfl⟩

end Text2Map
